import Mathlib

/-!
Shallow embedding of the date/transition core of
`src/react/src/js/components/Consonant/Helpers/general.js`:
`isDateWithinInterval`, `isDateBeforeInterval`, `getCurrentDate`,
`getEventBanner`, `getTransitions`, and the pagination helper
`getStartNumber`.

Modelling choices, in terms of the JavaScript source:
* A JavaScript number produced by `Date.parse` or by date arithmetic is either
  an integer millisecond count or `NaN`; it is embedded as `Option Int`
  (`none` = `NaN`).  JS comparison operators return `false` whenever either
  side is `NaN`, and arithmetic propagates `NaN`.
* A date-like field value (a string, number, …) is abstracted by the two
  attributes the code reads from it: its `Date.parse` result and its JS
  truthiness.  An absent field (`undefined`) is `Option.none` at the field
  level: `Date.parse(undefined)` is `NaN` and `undefined` is falsy.
* `Date.parse` applied to a JS *number* (the double parse on the end-date
  path) stringifies the number and parses that string; this is embedded as an
  explicit function parameter `parseNum : Int → Option Int`, with the
  concrete instance `ecmaParseNum` capturing the behaviour mandated by
  ECMA-262 on decimal integer strings (a bare four-digit string `YYYY` is a
  valid Date Time String and parses to the UTC start of that year; other
  decimal integer strings are not in the format and yield `NaN` in practice).
-/

/-- A JS number as produced by `Date.parse` and date arithmetic:
`some n` is the integer `n`, `none` is `NaN`. -/
abbrev JSNum : Type := Option Int

/-- JS truthiness of a number: `NaN` and `0` are falsy. -/
def jsTruthyNum : JSNum → Bool
  | none => false
  | some p => p != 0

/-- JS `x > 0`: false when `x` is `NaN`. -/
def jsGtZero : JSNum → Bool
  | none => false
  | some p => decide (0 < p)

/-- JS `x <= y`: false when either side is `NaN`. -/
def jsLeB : JSNum → JSNum → Bool
  | some x, some y => decide (x ≤ y)
  | _, _ => false

/-- JS `x >= y`: false when either side is `NaN`. -/
def jsGeB : JSNum → JSNum → Bool
  | some x, some y => decide (y ≤ x)
  | _, _ => false

/-- JS `x < y`: false when either side is `NaN`. -/
def jsLtB : JSNum → JSNum → Bool
  | some x, some y => decide (x < y)
  | _, _ => false

/-- JS subtraction of a known integer (the current date's millisecond value)
from a possibly-`NaN` number; `NaN` propagates. -/
def jsSubNum (a : JSNum) (n : Int) : JSNum := a.map (fun x => x - n)

/-- A date-like JS value, abstracted by the two attributes the code reads:
its `Date.parse` result (`none` = `NaN`, i.e. unparseable/malformed) and its
JS truthiness. -/
structure DateVal where
  parsed : Option Int
  truthy : Bool
deriving DecidableEq, Repr

/-- A timed item (card): `startDate`/`endDate` fields, each possibly absent
(`undefined`). -/
structure Card where
  startDate : Option DateVal
  endDate : Option DateVal
deriving DecidableEq, Repr

/-- `Date.parse` applied to a field value: an absent field (`undefined`)
parses to `NaN`. -/
def parseField : Option DateVal → JSNum
  | none => none
  | some v => v.parsed

/-- JS truthiness of a field value: an absent field is falsy. -/
def fieldTruthy : Option DateVal → Bool
  | none => false
  | some v => v.truthy

/-- `isDateWithinInterval(currentDate, startDate, endDate)`:
parse all three and return `start <= curr && end >= curr`. -/
def isDateWithinInterval (currentDate startDate endDate : Option DateVal) : Bool :=
  jsLeB (parseField startDate) (parseField currentDate) &&
    jsGeB (parseField endDate) (parseField currentDate)

/-- `isDateBeforeInterval(currentDate, startDate)`:
parse both and return `curr < start`. -/
def isDateBeforeInterval (currentDate startDate : Option DateVal) : Bool :=
  jsLtB (parseField currentDate) (parseField startDate)

/-- The caller-supplied three-variant banner lookup. -/
structure BannerMap (α : Type) where
  live : α
  upcoming : α
  onDemand : α

/-- The `Date` object returned by `getCurrentDate()`, viewed as a date-like
value: it parses to its millisecond instant and is truthy. -/
def dateOfInstant (now : Int) : Option DateVal := some ⟨some now, true⟩

/-- `getEventBanner(startDate, endDate, bannerMap)`; `now` is the instant of
the `Date` object obtained from `getCurrentDate()` inside the function. -/
def getEventBanner {α : Type} (now : Int) (startDate endDate : Option DateVal)
    (bannerMap : BannerMap α) : α :=
  if isDateWithinInterval (dateOfInstant now) startDate endDate then bannerMap.live
  else if isDateBeforeInterval (dateOfInstant now) startDate then bannerMap.upcoming
  else bannerMap.onDemand

/-- `getStartNumber(currentPageNumber, showItemsPerPage)` from the source:
special-cases page 1, otherwise `n*k - (k-1)`. -/
def getStartNumber (currentPageNumber showItemsPerPage : Int) : Int :=
  if currentPageNumber = 1 then 1
  else currentPageNumber * showItemsPerPage - (showItemsPerPage - 1)

/-- The branch-free formula from the claim:
`currentPageNumber * showItemsPerPage - (showItemsPerPage - 1)`. -/
def getStartNumberFormula (currentPageNumber showItemsPerPage : Int) : Int :=
  currentPageNumber * showItemsPerPage - (showItemsPerPage - 1)

/-- C10: `getStartNumber` coincides with the branch-free formula
`n*k - (k-1)` for every page number and page size; in particular the
special-cased return of `1` at page 1 equals the formula's value there. -/
theorem getStartNumber_eq_formula (n k : Int) :
    getStartNumber n k = getStartNumberFormula n k := by
  unfold getStartNumber getStartNumberFormula
  split
  · subst n; ring
  · rfl

/-- C9: with a malformed (unparseable) `startDate`, `getEventBanner` returns
`bannerMap.onDemand` for every current time, every `endDate` and every banner
map: the `NaN` comparisons make both the within test and the before test
false. -/
theorem getEventBanner_malformed_start {α : Type} (now : Int) (b : Bool)
    (endDate : Option DateVal) (m : BannerMap α) :
    getEventBanner now (some ⟨none, b⟩) endDate m = m.onDemand := by
  unfold getEventBanner isDateWithinInterval isDateBeforeInterval
  simp [parseField, dateOfInstant, jsLeB, jsLtB]

/-- C4: `isDateWithinInterval t s e` is true iff all three inputs parse and
`parse s ≤ parse t ≤ parse e` (boundary equality included); if any input is
unparseable the `NaN` comparisons make the result false. -/
theorem isDateWithinInterval_iff (t s e : Option DateVal) :
    isDateWithinInterval t s e = true ↔
      ∃ pc ps pe : Int, parseField t = some pc ∧ parseField s = some ps ∧
        parseField e = some pe ∧ ps ≤ pc ∧ pc ≤ pe := by
  unfold isDateWithinInterval
  cases ht : parseField t <;> cases hs : parseField s <;> cases he : parseField e <;>
    simp [jsLeB, jsGeB]

/-- The longest leading run of decimal digits of a character list. -/
def takeDigits (cs : List Char) : List Char := cs.takeWhile (fun c => c.isDigit)

/-- Numeric value of a decimal digit string. -/
def digitsToNat (cs : List Char) : Nat :=
  cs.foldl (fun acc c => 10 * acc + (c.toNat - 48)) 0

/-- `parseInt(urlParams.get('servertime'), 10)`.  `urlParams.get` returns the
parameter string or `null` (embedded as `none`); `parseInt(null, 10)`
stringifies `null` to `"null"`, which has no digit prefix, hence `NaN`.  For
a string: skip leading whitespace, read an optional sign and then the
longest digit prefix; an empty digit prefix gives `NaN`.  (JS numbers are
idealised as exact integers.) -/
def parseInt10 : Option String → JSNum
  | none => none
  | some str =>
      match str.data.dropWhile (fun c => c == ' ' || c == '\t' || c == '\n' || c == '\r') with
      | '-' :: rest =>
          if (takeDigits rest).isEmpty then none
          else some (-(digitsToNat (takeDigits rest) : Int))
      | '+' :: rest =>
          if (takeDigits rest).isEmpty then none
          else some ((digitsToNat (takeDigits rest) : Int))
      | cs =>
          if (takeDigits cs).isEmpty then none
          else some ((digitsToNat (takeDigits cs) : Int))

/-- `getCurrentDate()`: `wallClock` is the instant `new Date()` would hold,
`differential` the module-level accumulator, `servertimeParam` the raw
`servertime` query parameter (`none` when absent).  The result is the
millisecond instant of the returned `Date`: `servertime` (after `parseInt`)
is used iff it is truthy (a non-zero number). -/
def getCurrentDate (wallClock differential : Int) (servertimeParam : Option String) : Int :=
  match parseInt10 servertimeParam with
  | some n => if n ≠ 0 then n + differential else wallClock
  | none => wallClock

/-- `Date.parse` applied to a JS number: `NaN` stringifies to `"NaN"` which
parses to `NaN`; the integer case is supplied by `parseNum`. -/
def jsParseOfNum (parseNum : Int → Option Int) : JSNum → JSNum
  | none => none
  | some n => parseNum n

/-- Days from 1970-01-01 to the start of proleptic-Gregorian year `y`. -/
def daysToYearStart (y : Int) : Int :=
  365 * (y - 1) + (y - 1) / 4 - (y - 1) / 100 + (y - 1) / 400 - 719162

/-- Epoch milliseconds of `y`-01-01T00:00:00Z. -/
def msOfYearStart (y : Int) : Int := 86400000 * daysToYearStart y

/-- `Date.parse` applied to a JS integer `n`: ECMA-262 stringifies `n` and
parses the resulting string.  Among decimal integer strings, exactly the
bare four-digit forms `"1000"`–`"9999"` conform to the Date Time String
Format (a year-only `YYYY`), mandated to denote the UTC start of that year;
all other decimal integer strings are outside the format and yield `NaN` in
engines. -/
def ecmaParseNum (n : Int) : Option Int :=
  if 1000 ≤ n ∧ n ≤ 9999 then some (msOfYearStart n) else none

/-- The start-branch priority of a card:
`Date.parse(cards[i].startDate) - currentDate`. -/
def startPriority (now : Int) (card : Card) : JSNum :=
  jsSubNum (parseField card.startDate) now

/-- The end-branch priority of a card, computed by the double parse
`Date.parse(Date.parse(cards[i].endDate) - currentDate)`. -/
def endPriority (parseNum : Int → Option Int) (now : Int) (card : Card) : JSNum :=
  jsParseOfNum parseNum (jsSubNum (parseField card.endDate) now)

/-- The enqueue operations the `getTransitions` loop body performs for one
card, in order: a start event `(card, priority)` when
`priority && priority > 0`, then an end event `(null, endPriority)` when
`cards[i].endDate` is truthy and `endPriority > 0`. -/
def transitionsForCard (parseNum : Int → Option Int) (now : Int) (card : Card) :
    List (Option Card × JSNum) :=
  (if jsTruthyNum (startPriority now card) && jsGtZero (startPriority now card)
      then [(some card, startPriority now card)] else [])
    ++ (if fieldTruthy card.endDate && jsGtZero (endPriority parseNum now card)
      then [(none, endPriority parseNum now card)] else [])

/-- `getTransitions(cardsPtr)`: the entries of the built `MinPriorityQueue`
in insertion order (the loop iterates the copied card list in order and
enqueues per card).  `now` is the millisecond value of the `Date` from
`getCurrentDate()` (number-minus-Date subtraction uses the Date's primitive
value); `parseNum` is `Date.parse` on numbers, as in `jsParseOfNum`. -/
def getTransitions (parseNum : Int → Option Int) (now : Int) :
    List Card → List (Option Card × JSNum)
  | [] => []
  | card :: cards =>
      transitionsForCard parseNum now card ++ getTransitions parseNum now cards

/-- Heap comparison key of a priority. -/
def pqKey : JSNum → WithBot Int
  | none => ⊥
  | some n => (n : WithBot Int)

/-- Comparison of queue entries by priority. -/
def pqLe (a b : Option Card × JSNum) : Prop := pqKey a.2 ≤ pqKey b.2

instance : DecidableRel pqLe :=
  fun a b => inferInstanceAs (Decidable (pqKey a.2 ≤ pqKey b.2))

instance : IsTotal (Option Card × JSNum) pqLe := ⟨fun _ _ => le_total _ _⟩

instance : IsTrans (Option Card × JSNum) pqLe := ⟨fun _ _ _ => le_trans⟩

/-- Repeatedly popping the minimum of the `MinPriorityQueue` until empty
yields the entries rearranged into non-decreasing priority order; as a
sequence of priorities this is exactly the priority-sorted rearrangement of
the insertion list (tie order among equal priorities cannot affect the
priority sequence), modelled as a sort under `pqLe`. -/
def dequeueAll (q : List (Option Card × JSNum)) : List (Option Card × JSNum) :=
  List.insertionSort pqLe q

theorem jsGtZero_eq_true_iff (x : JSNum) :
    jsGtZero x = true ↔ ∃ p : Int, x = some p ∧ 0 < p := by
  cases x <;> simp [jsGtZero]

theorem mem_transitionsForCard_pos (parseNum : Int → Option Int) (now : Int)
    (card : Card) (e : Option Card × JSNum)
    (he : e ∈ transitionsForCard parseNum now card) :
    ∃ p : Int, e.2 = some p ∧ 0 < p := by
  unfold transitionsForCard at he
  rcases List.mem_append.1 he with h | h
  · split at h
    · next hcond =>
        rcases List.mem_singleton.1 h with rfl
        exact (jsGtZero_eq_true_iff _).1 (Bool.and_elim_right hcond)
    · exact absurd h (List.not_mem_nil e)
  · split at h
    · next hcond =>
        rcases List.mem_singleton.1 h with rfl
        exact (jsGtZero_eq_true_iff _).1 (Bool.and_elim_right hcond)
    · exact absurd h (List.not_mem_nil e)

theorem mem_getTransitions_pos (parseNum : Int → Option Int) (now : Int)
    (cards : List Card) (e : Option Card × JSNum)
    (he : e ∈ getTransitions parseNum now cards) :
    ∃ p : Int, e.2 = some p ∧ 0 < p := by
  induction cards with
  | nil => exact absurd he (List.not_mem_nil e)
  | cons c cs ih =>
      rcases List.mem_append.1 he with h | h
      · exact mem_transitionsForCard_pos parseNum now c e h
      · exact ih h

/-- C2: every `TransitionEvent` enqueued by `getTransitions` — on the
start-date branch or the end-date branch — has a strictly positive integer
priority: no event with a zero, negative or `NaN` priority is ever placed in
the queue, for every card collection, every current time and every
number-parse behaviour. -/
theorem getTransitions_priority_pos (parseNum : Int → Option Int) (now : Int)
    (cards : List Card) (e : Option Card × JSNum)
    (he : e ∈ getTransitions parseNum now cards) :
    ∃ p : Int, e.2 = some p ∧ 0 < p :=
  mem_getTransitions_pos parseNum now cards e he

theorem getTransitions_priority_pos_witness :
    ∃ p : Int,
      ((some (⟨some ⟨some 2000, true⟩, none⟩ : Card), (some 2000 : JSNum)).2 = some p ∧ 0 < p) :=
  getTransitions_priority_pos ecmaParseNum 0 [⟨some ⟨some 2000, true⟩, none⟩]
    (some ⟨some ⟨some 2000, true⟩, none⟩, some 2000) (by decide)

/-- C3: for a one-item collection, an end event — whose element is `null`,
so the ended item's identity is not preserved — is in the queue built by
`getTransitions` iff `item.endDate` is truthy and the double-parsed value
`Date.parse(Date.parse(item.endDate) - now)` is `> 0`; and every end event
in that queue carries exactly that double-parsed value as its priority. -/
theorem getTransitions_end_event_char (parseNum : Int → Option Int) (now : Int)
    (card : Card) :
    ((∃ pri : JSNum, (none, pri) ∈ getTransitions parseNum now [card]) ↔
      (fieldTruthy card.endDate = true ∧
        jsGtZero (endPriority parseNum now card) = true)) ∧
    (∀ pri : JSNum, (none, pri) ∈ getTransitions parseNum now [card] →
      pri = endPriority parseNum now card) := by
  have hq : getTransitions parseNum now [card] =
      transitionsForCard parseNum now card ++ [] := rfl
  rw [hq, List.append_nil]
  unfold transitionsForCard
  constructor
  · constructor
    · intro ⟨pri, hpri⟩
      rcases List.mem_append.1 hpri with h | h
      · split at h
        · simp at h
        · exact absurd h (List.not_mem_nil _)
      · split at h
        · next hcond => exact Bool.and_eq_true_iff.1 hcond
        · exact absurd h (List.not_mem_nil _)
    · intro ⟨h1, h2⟩
      refine ⟨endPriority parseNum now card, List.mem_append.2 (Or.inr ?_)⟩
      rw [if_pos (by rw [h1, h2]; rfl)]
      exact List.mem_singleton.2 rfl
  · intro pri hpri
    rcases List.mem_append.1 hpri with h | h
    · split at h
      · simp at h
      · exact absurd h (List.not_mem_nil _)
    · split at h
      · rcases List.mem_singleton.1 h with h'
        exact congrArg Prod.snd h'
      · exact absurd h (List.not_mem_nil _)

theorem getTransitions_end_event_char_witness :
    ∃ pri : JSNum,
      ((none : Option Card), pri) ∈
        getTransitions ecmaParseNum 0 [⟨none, some ⟨some 3000, true⟩⟩] :=
  (getTransitions_end_event_char ecmaParseNum 0 ⟨none, some ⟨some 3000, true⟩⟩).1.2
    ⟨by decide, by decide⟩

/-- The single-item collection of claim C1: `startDate` denoting the instant
2000 and `endDate` denoting the instant 5000 (epoch milliseconds). -/
def c1Card : Card := ⟨some ⟨some 2000, true⟩, some ⟨some 5000, true⟩⟩

/-- C1 is false on the code: at current time 1000 on
`[{startDate: 2000, endDate: 5000}]` the queue does NOT hold exactly one
event, and the end-date path DOES enqueue: the double parse evaluates
`Date.parse(5000 - 1000)`, and the decimal string `"4000"` is a valid
year-only ES date (the year 4000), whose UTC start is the positive instant
64060588800000, so a second event `(null, 64060588800000)` is enqueued. -/
theorem getTransitions_c1_counterexample :
    (getTransitions ecmaParseNum 1000 [c1Card]).length ≠ 1 ∧
      ((none : Option Card), (some 64060588800000 : JSNum)) ∈
        getTransitions ecmaParseNum 1000 [c1Card] := by
  decide

/-- C1 (amended): at current time 1000 on
`[{startDate: 2000, endDate: 5000}]` exactly two events are enqueued, in
insertion order: the start event with priority `1000` carrying the item,
and an end event `(null, 64060588800000)` produced by the end-date path
(the numeric difference `4000` re-parsed as the year 4000). -/
theorem getTransitions_c1_amended :
    getTransitions ecmaParseNum 1000 [c1Card] =
      [(some c1Card, some 1000),
        ((none : Option Card), (some 64060588800000 : JSNum))] := by
  decide

/-- C6: `getCurrentDate` returns `servertime + differential` exactly when the
`servertime` query parameter parses (base-10 `parseInt`) to a non-zero
number; a missing (`none`, i.e. `null`) or non-numeric parameter parses to
`NaN` and falls back to the wall clock, and a zero value also falls back;
no input raises an error (the function is total on all inputs). -/
theorem getCurrentDate_spec (wallClock differential : Int) (p : Option String) :
    (∀ n : Int, parseInt10 p = some n → n ≠ 0 →
        getCurrentDate wallClock differential p = n + differential) ∧
    ((parseInt10 p = none ∨ parseInt10 p = some 0) →
        getCurrentDate wallClock differential p = wallClock) ∧
    parseInt10 none = none := by
  refine ⟨?_, ?_, rfl⟩
  · intro n hn hne
    unfold getCurrentDate
    rw [hn]
    simp [hne]
  · intro hcase
    unfold getCurrentDate
    rcases hcase with hc | hc <;> simp [hc]

theorem getCurrentDate_spec_witness :
    getCurrentDate 77 3 (some "2000") = 2000 + 3 :=
  (getCurrentDate_spec 77 3 (some "2000")).1 2000 (by decide) (by decide)

/-- C7: repeatedly popping the minimum of the queue built by
`getTransitions` yields events whose priorities form a non-decreasing
sequence of (non-`NaN`) integers, for every card collection, every current
time and every number-parse behaviour. -/
theorem getTransitions_pop_monotone (parseNum : Int → Option Int) (now : Int)
    (cards : List Card) :
    ∃ ps : List Int,
      (dequeueAll (getTransitions parseNum now cards)).map Prod.snd = ps.map some ∧
        ps.Chain' (· ≤ ·) := by
  have hmem : ∀ e ∈ dequeueAll (getTransitions parseNum now cards),
      ∃ p : Int, e.2 = some p ∧ 0 < p := by
    intro e he
    exact mem_getTransitions_pos parseNum now cards e
      ((List.perm_insertionSort pqLe (getTransitions parseNum now cards)).mem_iff.1 he)
  refine ⟨(dequeueAll (getTransitions parseNum now cards)).map (fun e => e.2.getD 0), ?_, ?_⟩
  · rw [List.map_map]
    refine List.map_congr_left ?_
    intro e he
    rcases hmem e he with ⟨p, hp, _⟩
    simp [hp]
  · have hsorted : List.Pairwise pqLe (dequeueAll (getTransitions parseNum now cards)) :=
      List.sorted_insertionSort pqLe (getTransitions parseNum now cards)
    have hpair : List.Pairwise
        (fun a b : Option Card × JSNum => a.2.getD 0 ≤ b.2.getD 0)
        (dequeueAll (getTransitions parseNum now cards)) := by
      refine hsorted.imp_of_mem ?_
      intro a b ha hb hab
      rcases hmem a ha with ⟨pa, hpa, _⟩
      rcases hmem b hb with ⟨pb, hpb, _⟩
      have hk : pqKey a.2 ≤ pqKey b.2 := hab
      rw [hpa, hpb] at hk
      have hple : pa ≤ pb := by simpa [pqKey] using hk
      simp [hpa, hpb, hple]
    exact (List.chain'_map _).2 hpair.chain'

/-- C5: when both dates parse and `parse s ≤ parse e`, the three selecting
conditions of `getEventBanner` are mutually exclusive and exhaustive and
select exactly one of the three banner-map fields: within `[s, e]` the
within-test holds (before-test fails) and `live` is returned; strictly
before `s` the before-test holds (within-test fails) and `upcoming` is
returned; strictly after `e` both tests fail and `onDemand` is returned —
and the two non-live regions cannot overlap. -/
theorem getEventBanner_trichotomy {α : Type} (now ps pe : Int) (bs be : Bool)
    (m : BannerMap α) (h : ps ≤ pe) :
    ((ps ≤ now ∧ now ≤ pe ∧
        isDateWithinInterval (dateOfInstant now) (some ⟨some ps, bs⟩) (some ⟨some pe, be⟩)
          = true ∧
        isDateBeforeInterval (dateOfInstant now) (some ⟨some ps, bs⟩) = false ∧
        getEventBanner now (some ⟨some ps, bs⟩) (some ⟨some pe, be⟩) m = m.live) ∨
      (now < ps ∧
        isDateWithinInterval (dateOfInstant now) (some ⟨some ps, bs⟩) (some ⟨some pe, be⟩)
          = false ∧
        isDateBeforeInterval (dateOfInstant now) (some ⟨some ps, bs⟩) = true ∧
        getEventBanner now (some ⟨some ps, bs⟩) (some ⟨some pe, be⟩) m = m.upcoming) ∨
      (pe < now ∧
        isDateWithinInterval (dateOfInstant now) (some ⟨some ps, bs⟩) (some ⟨some pe, be⟩)
          = false ∧
        isDateBeforeInterval (dateOfInstant now) (some ⟨some ps, bs⟩) = false ∧
        getEventBanner now (some ⟨some ps, bs⟩) (some ⟨some pe, be⟩) m = m.onDemand)) ∧
    ¬(now < ps ∧ pe < now) := by
  have hW : isDateWithinInterval (dateOfInstant now) (some ⟨some ps, bs⟩) (some ⟨some pe, be⟩)
      = (decide (ps ≤ now) && decide (now ≤ pe)) := rfl
  have hB : isDateBeforeInterval (dateOfInstant now) (some ⟨some ps, bs⟩)
      = decide (now < ps) := rfl
  have hban : getEventBanner now (some ⟨some ps, bs⟩) (some ⟨some pe, be⟩) m
      = if ps ≤ now ∧ now ≤ pe then m.live
        else if now < ps then m.upcoming else m.onDemand := by
    unfold getEventBanner
    rw [hW, hB]
    by_cases hA : ps ≤ now ∧ now ≤ pe
    · simp [hA, hA.1, hA.2]
    · by_cases hC : now < ps
      · simp [hA, hC, not_le.mpr hC]
      · have hnle : ¬ now ≤ pe := fun hle => hA ⟨not_lt.mp hC, hle⟩
        simp [hA, hC, hnle]
  refine ⟨?_, by omega⟩
  by_cases h1 : now < ps
  · refine Or.inr (Or.inl ⟨h1, ?_, ?_, ?_⟩)
    · rw [hW]; simp; omega
    · rw [hB]; simp [h1]
    · rw [hban, if_neg (by omega), if_pos h1]
  · by_cases h2 : pe < now
    · refine Or.inr (Or.inr ⟨h2, ?_, ?_, ?_⟩)
      · rw [hW]; simp; omega
      · rw [hB]; simp [h1]
      · rw [hban, if_neg (by omega), if_neg h1]
    · refine Or.inl ⟨by omega, by omega, ?_, ?_, ?_⟩
      · rw [hW]; simp; omega
      · rw [hB]; simp [h1]
      · rw [hban, if_pos (by omega)]

theorem getEventBanner_trichotomy_witness :
    ((1 : Int) ≤ 5 ∧ (5 : Int) ≤ 9 ∧
        isDateWithinInterval (dateOfInstant 5) (some ⟨some 1, true⟩) (some ⟨some 9, true⟩)
          = true ∧
        isDateBeforeInterval (dateOfInstant 5) (some ⟨some 1, true⟩) = false ∧
        getEventBanner 5 (some ⟨some 1, true⟩) (some ⟨some 9, true⟩)
          (BannerMap.mk (0 : Nat) 1 2) = (BannerMap.mk (0 : Nat) 1 2).live ∨
      ((5 : Int) < 1 ∧
        isDateWithinInterval (dateOfInstant 5) (some ⟨some 1, true⟩) (some ⟨some 9, true⟩)
          = false ∧
        isDateBeforeInterval (dateOfInstant 5) (some ⟨some 1, true⟩) = true ∧
        getEventBanner 5 (some ⟨some 1, true⟩) (some ⟨some 9, true⟩)
          (BannerMap.mk (0 : Nat) 1 2) = (BannerMap.mk (0 : Nat) 1 2).upcoming) ∨
      ((9 : Int) < 5 ∧
        isDateWithinInterval (dateOfInstant 5) (some ⟨some 1, true⟩) (some ⟨some 9, true⟩)
          = false ∧
        isDateBeforeInterval (dateOfInstant 5) (some ⟨some 1, true⟩) = false ∧
        getEventBanner 5 (some ⟨some 1, true⟩) (some ⟨some 9, true⟩)
          (BannerMap.mk (0 : Nat) 1 2) = (BannerMap.mk (0 : Nat) 1 2).onDemand)) ∧
    ¬((5 : Int) < 1 ∧ (9 : Int) < 5) :=
  getEventBanner_trichotomy 5 1 9 true true (BannerMap.mk 0 1 2) (by decide)

/-- C8: the three core operations are total and degrade to their documented
defaults on malformed input instead of raising: `isDateWithinInterval`
returns `false` whenever any of its three inputs is unparseable,
`getEventBanner` (given a banner map) always returns one of its three
fields, and `getTransitions` on a collection whose items all have
absent-or-unparseable start and end dates returns the empty queue. -/
theorem core_no_error_defaults {α : Type} (t s e : Option DateVal) (m : BannerMap α)
    (parseNum : Int → Option Int) (now : Int) (cards : List Card) :
    ((parseField t = none ∨ parseField s = none ∨ parseField e = none) →
        isDateWithinInterval t s e = false) ∧
    (getEventBanner now s e m = m.live ∨ getEventBanner now s e m = m.upcoming ∨
        getEventBanner now s e m = m.onDemand) ∧
    ((∀ card ∈ cards, parseField card.startDate = none ∧ parseField card.endDate = none) →
        getTransitions parseNum now cards = []) := by
  refine ⟨?_, ?_, ?_⟩
  · intro hcase
    unfold isDateWithinInterval
    rcases hcase with hc | hc | hc <;> rw [hc]
    · cases parseField s <;> simp [jsLeB]
    · simp [jsLeB]
    · cases parseField t <;> simp [jsLeB, jsGeB]
  · unfold getEventBanner
    split_ifs <;> simp
  · intro hall
    induction cards with
    | nil => rfl
    | cons c cs ih =>
        have hc := hall c (List.mem_cons_self c cs)
        have hrest : getTransitions parseNum now cs = [] :=
          ih (fun card hm => hall card (List.mem_cons_of_mem c hm))
        have hhead : transitionsForCard parseNum now c = [] := by
          unfold transitionsForCard
          rw [show startPriority now c = none by
                unfold startPriority; rw [hc.1]; rfl,
              show endPriority parseNum now c = none by
                unfold endPriority; rw [hc.2]; rfl]
          simp [jsTruthyNum, jsGtZero]
        show transitionsForCard parseNum now c ++ getTransitions parseNum now cs = []
        rw [hhead, hrest]
        rfl

theorem core_no_error_defaults_witness :
    isDateWithinInterval (some ⟨none, true⟩) (some ⟨some 1, true⟩) (some ⟨some 2, true⟩)
        = false ∧
      getTransitions ecmaParseNum 0 [⟨some ⟨none, true⟩, none⟩] = [] :=
  ⟨(core_no_error_defaults (some ⟨none, true⟩) (some ⟨some 1, true⟩) (some ⟨some 2, true⟩)
      (BannerMap.mk (0 : Nat) 1 2) ecmaParseNum 0 []).1 (Or.inl rfl),
    (core_no_error_defaults (some ⟨none, true⟩) (some ⟨some 1, true⟩) (some ⟨some 2, true⟩)
      (BannerMap.mk (0 : Nat) 1 2) ecmaParseNum 0 [⟨some ⟨none, true⟩, none⟩]).2.2
      (by decide)⟩
